import Mathlib

/-!
Verification development for the medicine crawler repository.

The Python source is embedded shallowly: dictionaries become association
lists over `String` keys and values (`PyDict`), the SQLite `medicines`
table becomes a list of rows, stateful methods become state-passing
functions, and network I/O becomes an explicit oracle argument.  Machine
integers appear as `Nat` with explicit `% 2 ^ 32` where the source relies
on 32-bit overflow (inside MD5).  `None`/missing dictionary keys map to a
missing association-list key; SQL `NULL` and the empty string are both
falsy in the source and are conflated as `""` where rows are totalized.
-/

/-- Python's substring test `needle in hay` (`str.__contains__`). -/
def strContains (hay needle : String) : Bool :=
  hay.data.tails.any (fun t => needle.data.isPrefixOf t)

/-- Python's `s.startswith(p)`. -/
def strStartsWith (s p : String) : Bool :=
  p.data.isPrefixOf s.data

/-- Whitespace collapsing for `clean_text`: every maximal run of whitespace
characters becomes a single space, as `re.sub(r'\s+', ' ', text)` does.
The flag records whether the previous character was whitespace. -/
def collapseWsGo : Bool → List Char → List Char
  | _, [] => []
  | prevWs, c :: rest =>
    if c.isWhitespace then
      if prevWs then collapseWsGo true rest
      else ' ' :: collapseWsGo true rest
    else c :: collapseWsGo false rest

/-- Whitespace collapsing over a character list. -/
def collapseWs (l : List Char) : List Char :=
  collapseWsGo false l

/-- Strip whitespace from both ends of a character list (`str.strip`). -/
def stripChars (l : List Char) : List Char :=
  ((l.dropWhile Char.isWhitespace).reverse.dropWhile Char.isWhitespace).reverse

/-- `utils/helpers.py` `clean_text`: returns `""` for falsy input, otherwise
collapses whitespace runs to single spaces and strips both ends. -/
def clean_text (text : String) : String :=
  if text = "" then ""
  else String.mk (stripChars (collapseWs text.data))

/-- UTF-8 encoding of one code point, as `str.encode('utf-8')` produces. -/
def utf8Char (c : Char) : List Nat :=
  let n := c.toNat
  if n < 0x80 then [n]
  else if n < 0x800 then
    [0xC0 ||| (n >>> 6), 0x80 ||| (n &&& 0x3F)]
  else if n < 0x10000 then
    [0xE0 ||| (n >>> 12), 0x80 ||| ((n >>> 6) &&& 0x3F), 0x80 ||| (n &&& 0x3F)]
  else
    [0xF0 ||| (n >>> 18), 0x80 ||| ((n >>> 12) &&& 0x3F),
     0x80 ||| ((n >>> 6) &&& 0x3F), 0x80 ||| (n &&& 0x3F)]

/-- UTF-8 bytes of a string (each byte a `Nat` below 256). -/
def utf8Bytes (s : String) : List Nat :=
  s.data.flatMap utf8Char

/-- The 64 MD5 round constants `K[i] = floor(2^32 * abs(sin(i+1)))`. -/
def md5K : List Nat :=
  [3614090360, 3905402710, 606105819, 3250441966, 4118548399, 1200080426,
   2821735955, 4249261313, 1770035416, 2336552879, 4294925233, 2304563134,
   1804603682, 4254626195, 2792965006, 1236535329, 4129170786, 3225465664,
   643717713, 3921069994, 3593408605, 38016083, 3634488961, 3889429448,
   568446438, 3275163606, 4107603335, 1163531501, 2850285829, 4243563512,
   1735328473, 2368359562, 4294588738, 2272392833, 1839030562, 4259657740,
   2763975236, 1272893353, 4139469664, 3200236656, 681279174, 3936430074,
   3572445317, 76029189, 3654602809, 3873151461, 530742520, 3299628645,
   4096336452, 1126891415, 2878612391, 4237533241, 1700485571, 2399980690,
   4293915773, 2240044497, 1873313359, 4264355552, 2734768916, 1309151649,
   4149444226, 3174756917, 718787259, 3951481745]

/-- The MD5 per-round left-rotation amounts. -/
def md5S : List Nat :=
  [7, 12, 17, 22, 7, 12, 17, 22, 7, 12, 17, 22, 7, 12, 17, 22,
   5, 9, 14, 20, 5, 9, 14, 20, 5, 9, 14, 20, 5, 9, 14, 20,
   4, 11, 16, 23, 4, 11, 16, 23, 4, 11, 16, 23, 4, 11, 16, 23,
   6, 10, 15, 21, 6, 10, 15, 21, 6, 10, 15, 21, 6, 10, 15, 21]

/-- 32-bit left rotation over `Nat`, masking to 32 bits. -/
def rotl32 (x n : Nat) : Nat :=
  ((x <<< n) ||| (x >>> (32 - n))) &&& 0xFFFFFFFF

/-- 32-bit bitwise complement over `Nat`. -/
def not32 (x : Nat) : Nat :=
  x ^^^ 0xFFFFFFFF

/-- MD5 padding: append `0x80`, zero-pad to 56 mod 64 bytes, then the
original length in bits as a little-endian 64-bit quantity. -/
def md5Pad (msg : List Nat) : List Nat :=
  let bitLen := (msg.length * 8) % (2 ^ 64)
  let padded := msg ++ [0x80]
  let zeros := (64 + 56 - padded.length % 64) % 64
  padded ++ List.replicate zeros 0 ++
    ((List.range 8).map (fun i => (bitLen >>> (8 * i)) &&& 0xFF))

/-- Split a byte list into 64-byte chunks; the fuel argument only bounds
the recursion depth and is always sufficient when set to the length. -/
def chunks64Go : Nat → List Nat → List (List Nat)
  | 0, _ => []
  | _ + 1, [] => []
  | fuel + 1, l => l.take 64 :: chunks64Go fuel (l.drop 64)

/-- Split a byte list into 64-byte chunks. -/
def chunks64 (l : List Nat) : List (List Nat) :=
  chunks64Go (l.length + 1) l

/-- Decode a 64-byte chunk into sixteen little-endian 32-bit words. -/
def md5Words (chunk : List Nat) : List Nat :=
  (List.range 16).map (fun j =>
    chunk.getD (4 * j) 0 ||| (chunk.getD (4 * j + 1) 0 <<< 8) |||
    (chunk.getD (4 * j + 2) 0 <<< 16) ||| (chunk.getD (4 * j + 3) 0 <<< 24))

/-- One MD5 round: the state is `(A, B, C, D)`. -/
def md5Round (m : List Nat) (st : Nat × Nat × Nat × Nat) (i : Nat) :
    Nat × Nat × Nat × Nat :=
  let (a, b, c, d) := st
  let (f, g) :=
    if i < 16 then ((b &&& c) ||| (not32 b &&& d), i)
    else if i < 32 then ((d &&& b) ||| (not32 d &&& c), (5 * i + 1) % 16)
    else if i < 48 then (b ^^^ c ^^^ d, (3 * i + 5) % 16)
    else (c ^^^ (b ||| not32 d), (7 * i) % 16)
  let f' := (f + a + md5K.getD i 0 + m.getD g 0) % (2 ^ 32)
  (d, (b + rotl32 f' (md5S.getD i 0)) % (2 ^ 32), b, c)

/-- Process one 64-byte chunk, updating the four MD5 accumulators. -/
def md5Chunk (acc : Nat × Nat × Nat × Nat) (chunk : List Nat) :
    Nat × Nat × Nat × Nat :=
  let m := md5Words chunk
  let (a, b, c, d) := (List.range 64).foldl (md5Round m) acc
  let (a0, b0, c0, d0) := acc
  ((a0 + a) % (2 ^ 32), (b0 + b) % (2 ^ 32), (c0 + c) % (2 ^ 32),
   (d0 + d) % (2 ^ 32))

/-- Lowercase hex digit for a value below 16. -/
def hexDigit (n : Nat) : Char :=
  if n < 10 then Char.ofNat (48 + n) else Char.ofNat (87 + n)

/-- Two-digit lowercase hex rendering of a byte. -/
def byteHex (b : Nat) : List Char :=
  [hexDigit ((b >>> 4) &&& 0xF), hexDigit (b &&& 0xF)]

/-- Little-endian bytes of a 32-bit word. -/
def wordBytesLE (w : Nat) : List Nat :=
  [w &&& 0xFF, (w >>> 8) &&& 0xFF, (w >>> 16) &&& 0xFF, (w >>> 24) &&& 0xFF]

/-- MD5 digest of a byte list, rendered as 32 lowercase hex characters. -/
def md5hexBytes (msg : List Nat) : String :=
  let (a, b, c, d) :=
    (chunks64 (md5Pad msg)).foldl md5Chunk
      (0x67452301, 0xefcdab89, 0x98badcfe, 0x10325476)
  String.mk (((wordBytesLE a ++ wordBytesLE b ++ wordBytesLE c ++
    wordBytesLE d).map byteHex).flatten)

/-- `hashlib.md5(s.encode('utf-8')).hexdigest()`. -/
def md5OfString (s : String) : String :=
  md5hexBytes (utf8Bytes s)

example : md5OfString "" = "d41d8cd98f00b204e9800998ecf8427e" := by rfl

example : md5OfString "abc" = "900150983cd24fb0d6963f7d28e17f72" := by rfl

/-!
Python dictionaries with string keys and values.  A dictionary is an
insertion-ordered association list; assignment replaces the value of an
existing key in place and otherwise appends the new key at the end, so
keys stay unique, exactly as Python dictionaries behave.  `None` values
(SQL `NULL`) are conflated with `""`: both are falsy in the source and
both are excluded from the hash and from merge preference.
-/

/-- An insertion-ordered string-keyed dictionary. -/
abbrev PyDict : Type := List (String × String)

/-- Dictionary lookup, `d[k]` / `d.get(k)`: the value at the first
occurrence of the key. -/
def dictGet (d : PyDict) (k : String) : Option String :=
  match d with
  | [] => none
  | p :: rest => if p.1 = k then some p.2 else dictGet rest k

/-- Python's `k in d` key-membership test. -/
def dictHasKey (d : PyDict) (k : String) : Bool :=
  match d with
  | [] => false
  | p :: rest => if p.1 = k then true else dictHasKey rest k

/-- The key list of a dictionary. -/
def dictKeys (d : PyDict) : List String :=
  List.map Prod.fst d

/-- Dictionary assignment `d[k] = v`: replace the value at the first
occurrence of the key, or append the pair if the key is absent. -/
def dictSet (d : PyDict) (k v : String) : PyDict :=
  match d with
  | [] => [(k, v)]
  | p :: rest => if p.1 = k then (k, v) :: rest else p :: dictSet rest k v

/-- Truthiness of a value: Python treats `""` (and `None`, conflated
here with `""`) as falsy. -/
def truthy (v : String) : Bool :=
  v != ""

/-- Lexicographic comparison of character lists by code point, which is
how Python compares strings in `sorted`. -/
def lexLe : List Char → List Char → Bool
  | [], _ => true
  | _ :: _, [] => false
  | a :: as, b :: bs =>
    if a.toNat < b.toNat then true
    else if b.toNat < a.toNat then false
    else lexLe as bs

/-- Python string comparison `a <= b` (code-point lexicographic). -/
def pyStrLe (a b : String) : Bool :=
  lexLe a.data b.data

/-- `utils/helpers.py` `generate_data_hash`: drop the metadata fields and
falsy values, render each remaining pair as `"k:v"`, sort, join with
`"||"` and take the MD5 hex digest.  Note the source does NOT exclude
`url` from the hash input. -/
def generate_data_hash (d : PyDict) : String :=
  let exclude_fields := ["id", "created_at", "updated_at", "data_hash"]
  let key_fields :=
    List.insertionSort (fun a b => pyStrLe a b = true)
      ((d.filter (fun p => !exclude_fields.contains p.1 && truthy p.2)).map
        (fun p => p.1 ++ ":" ++ p.2))
  md5OfString (String.intercalate "||" key_fields)

/-- `utils/helpers.py` `merge_dicts` with the default `prefer_dict2=True`:
for each pair of `dict2` in order, a key already present keeps its old
value unless the new value is truthy, and a new key is added as given. -/
def merge_dicts (dict1 dict2 : PyDict) : PyDict :=
  dict2.foldl
    (fun result kv =>
      if dictHasKey result kv.1 then
        if truthy kv.2 then dictSet result kv.1 kv.2 else result
      else
        result ++ [kv])
    dict1

/-!
The persistence gateway (`db/db_manager.py`).  The SQLite `medicines`
table is a list of rows in insertion order; a row keeps its integer
primary key separately and its other columns as a `PyDict` in which an
absent key is a SQL `NULL`.  The `api_calls` side table is mirrored by
the in-memory counter of the API client model below.  Exceptions are
caught by every method and turned into a `none` return, so the
embedding is total.
-/

/-- The column list of `MEDICINE_SCHEMA` in `config/settings.py`. -/
def MEDICINE_SCHEMA_KEYS : List String :=
  ["id", "korean_name", "english_name", "category", "type", "company",
   "appearance", "insurance_code", "shape", "color", "size",
   "identification", "components", "efficacy", "precautions", "dosage",
   "storage", "period", "image_url", "image_path", "url", "created_at",
   "updated_at", "data_hash"]

/-- One persisted `medicines` row: the autoincrement primary key plus the
remaining columns (an absent key stands for SQL `NULL`). -/
structure MedRow where
  id : Nat
  data : PyDict
deriving DecidableEq

/-- The database: rows in insertion order plus the next autoincrement id
(SQLite starts at 1). -/
structure MedDB where
  rows : List MedRow
  nextId : Nat
deriving DecidableEq

/-- The empty database. -/
def MedDB.empty : MedDB := ⟨[], 1⟩

/-- `DatabaseManager.is_url_exists`: `SELECT id FROM medicines WHERE url = ?`. -/
def is_url_exists (db : MedDB) (url : String) : Bool :=
  db.rows.any (fun r => dictGet r.data "url" == some url)

/-- `DatabaseManager.is_data_hash_exists`:
`SELECT id FROM medicines WHERE data_hash = ?`. -/
def is_data_hash_exists (db : MedDB) (data_hash : String) : Bool :=
  db.rows.any (fun r => dictGet r.data "data_hash" == some data_hash)

/-- `SELECT * FROM medicines WHERE url = ?` turned into a dictionary: the
row's columns in schema order, `NULL` read back as `""` (both are falsy
everywhere the value is used). -/
def rowAsDict (r : MedRow) : PyDict :=
  ("id", toString r.id) ::
    (MEDICINE_SCHEMA_KEYS.drop 1).map (fun f => (f, (dictGet r.data f).getD ""))

/-- The merged dictionary of the update path: `merge_dicts(existing_data,
new_data)` with `updated_at` refreshed (`existing_data` is the row read
back with `SELECT *`). -/
def mergedRecord (r : MedRow) (now : String) (new_data : PyDict) : PyDict :=
  dictSet (merge_dicts (rowAsDict r) new_data) "updated_at" now

/-- The merged dictionary after `data_hash` is recomputed over it. -/
def updateMerged (r : MedRow) (now : String) (new_data : PyDict) : PyDict :=
  dictSet (mergedRecord r now new_data) "data_hash"
    (generate_data_hash (mergedRecord r now new_data))

/-- The column values the update statement writes: every schema field
except `id` that is a key of the merged dictionary. -/
def updateWritten (r : MedRow) (now : String) (new_data : PyDict) : PyDict :=
  (MEDICINE_SCHEMA_KEYS.filter
    (fun f => f != "id" && dictHasKey (updateMerged r now new_data) f)).map
    (fun f => (f, (dictGet (updateMerged r now new_data) f).getD ""))

/-- `DatabaseManager.update_medicine_by_url`: fetch the existing row,
merge with `merge_dicts`, refresh `updated_at`, recompute `data_hash`
over the merged dictionary, and write every schema column except `id`
back with `UPDATE ... WHERE url = ?`.  Returns the existing row's id.
(Renaming a row's `url` into a colliding one would hit the UNIQUE
constraint; `save_medicine` always passes the row's own url, so that
failure path is not modelled.) -/
def update_medicine_by_url (db : MedDB) (now : String) (url : String)
    (new_data : PyDict) : Option Nat × MedDB :=
  match db.rows.find? (fun r => dictGet r.data "url" == some url) with
  | none => (none, db)
  | some r =>
    let medicine_id := r.id
    let rows' := db.rows.map (fun r' =>
      if dictGet r'.data "url" == some url then
        { r' with data := updateWritten r now new_data }
      else r')
    (some medicine_id, { db with rows := rows' })

/-- `DatabaseManager.save_medicine`: update when the url already exists;
otherwise ensure a `data_hash` (computing it only when the key is
absent), reject when that hash is already stored, else insert a new row
with `created_at = updated_at = now`.  A record without a `url` key
raises `KeyError`, which the method catches and turns into `none`; an
insert without `korean_name` violates the NOT NULL constraint, likewise
caught. -/
def save_medicine (db : MedDB) (now : String) (medicine_data : PyDict) :
    Option Nat × MedDB :=
  match dictGet medicine_data "url" with
  | none => (none, db)
  | some url =>
    if is_url_exists db url then
      update_medicine_by_url db now url medicine_data
    else
      let md :=
        if dictHasKey medicine_data "data_hash" then medicine_data
        else dictSet medicine_data "data_hash" (generate_data_hash medicine_data)
      if is_data_hash_exists db ((dictGet md "data_hash").getD "") then
        (none, db)
      else if !dictHasKey md "korean_name" then
        (none, db)
      else
        let md := dictSet (dictSet md "created_at" now) "updated_at" now
        let rowData : PyDict :=
          (MEDICINE_SCHEMA_KEYS.filter
            (fun f => f != "id" && dictHasKey md f)).map
            (fun f => (f, (dictGet md f).getD ""))
        (some db.nextId,
         { rows := db.rows ++ [{ id := db.nextId, data := rowData }],
           nextId := db.nextId + 1 })

/-- `db/models.py` `Medicine.is_valid`, reading the model's attributes out
of its constructor keyword dictionary (absent attributes default to `""`):
requires truthy `korean_name` and `url`, and at least 2 filled fields
among `english_name`, `company`, `efficacy`, `dosage`, `precautions`. -/
def medicine_is_valid (m : PyDict) : Bool :=
  let attr := fun k => (dictGet m k).getD ""
  if !truthy (attr "korean_name") || !truthy (attr "url") then false
  else
    let important_fields :=
      ["english_name", "company", "efficacy", "dosage", "precautions"]
    let filled_count := (important_fields.filter (fun f => truthy (attr f))).length
    if filled_count < 2 then false else true

/-!
The rate-limited fetcher (`crawler/api_client.py`, effective second
definitions of `search_medicine` and `get_html_content`).  The network
is an oracle mapping the attempt index to the response of that attempt;
`attempts` counts network requests actually issued.  Sleeps are recorded
in `delays` (in the abstract time units of `REQUEST_DELAY`).  The daily
counter `today_api_calls` mirrors the `api_calls` table row for today;
it is incremented exactly once per successful request.
-/

/-- Configuration: `DAILY_API_LIMIT`, the `max_retries` parameter of
`get_html_content` (default 3, from `MAX_RETRIES`), the decorator's
`max_tries`, and `REQUEST_DELAY`. -/
structure ApiConfig where
  dailyLimit : Nat
  maxRetries : Nat
  maxTries : Nat
  requestDelay : Nat

/-- The client state: today's API call counter. -/
structure ApiState where
  today_api_calls : Nat
deriving DecidableEq

/-- `NaverAPIClient.check_api_limit`: `today_api_calls >= DAILY_API_LIMIT`. -/
def check_api_limit (cfg : ApiConfig) (st : ApiState) : Bool :=
  cfg.dailyLimit ≤ st.today_api_calls

/-- One network response for an HTML page fetch. -/
inductive HttpResponse where
  | ok (body : String)
  | redirect (location : String)
  | notFound
  | otherStatus (code : Nat)
  | netErr
deriving DecidableEq

/-- The page-validity test of `get_html_content`:
`'<html' in html_content.lower() and len(html_content) > 1000`. -/
def htmlValid (body : String) : Bool :=
  strContains body.toLower "<html" && decide (1000 < body.length)

/-- The outcome of a fetch: result, number of network requests issued,
the sleeps performed between retries, and the client state after. -/
structure FetchOutcome where
  result : Option String
  attempts : Nat
  delays : List Nat
  state : ApiState
deriving DecidableEq

/-- The retry loop of `get_html_content`.  `left` is
`max_retries - attempt`; `attempt < max_retries - 1` is `1 < left`.
A 200 response with a valid body returns it and increments the counter;
a redirect status with redirects disabled returns `none`; 404 returns
`none` with no retry; anything else (invalid body, other status codes,
request exceptions) waits `REQUEST_DELAY * (attempt + 1)` and retries,
returning `none` once attempts run out. -/
def get_html_content_go (cfg : ApiConfig) (follow_redirects : Bool)
    (oracle : Nat → HttpResponse) (st : ApiState) :
    Nat → Nat → List Nat → FetchOutcome
  | attempt, 0, delays => ⟨none, attempt, delays, st⟩
  | attempt, left + 1, delays =>
    let retryOrFail : FetchOutcome :=
      if 1 < left + 1 then
        get_html_content_go cfg follow_redirects oracle st (attempt + 1) left
          (delays ++ [cfg.requestDelay * (attempt + 1)])
      else ⟨none, attempt + 1, delays, st⟩
    match oracle attempt with
    | .ok body =>
      if htmlValid body then
        ⟨some body, attempt + 1, delays, ⟨st.today_api_calls + 1⟩⟩
      else retryOrFail
    | .redirect _ =>
      if !follow_redirects then ⟨none, attempt + 1, delays, st⟩
      else retryOrFail
    | .notFound => ⟨none, attempt + 1, delays, st⟩
    | .otherStatus _ => retryOrFail
    | .netErr => retryOrFail

/-- `NaverAPIClient.get_html_content` (the effective definition at line
206): check the daily ceiling first and return `none` without touching
the network when it is reached, otherwise run the retry loop. -/
def get_html_content (cfg : ApiConfig) (follow_redirects : Bool)
    (oracle : Nat → HttpResponse) (st : ApiState) : FetchOutcome :=
  if check_api_limit cfg st then ⟨none, 0, [], st⟩
  else get_html_content_go cfg follow_redirects oracle st 0 cfg.maxRetries []

/-- One network response for the search API. -/
inductive ApiResponse where
  | ok (payload : String)
  | reqErr
  | jsonErr
deriving DecidableEq

/-- The exception classes `search_medicine` can raise to its caller. -/
inductive SearchError where
  | reqErr
  | jsonErr
deriving DecidableEq

/-- The outcome of a search call: either a raised exception or an
optional payload, plus requests issued and the state after. -/
structure SearchOutcome where
  result : Except SearchError (Option String)
  attempts : Nat
  state : ApiState

/-- The body of `search_medicine` under its `@retry` decorator
(`max_tries = MAX_RETRIES`, catching request errors only).  Each try
re-checks the daily ceiling and returns `none` when reached (no
exception, so the decorator stops); a successful response increments
the counter; a JSON decode error is raised outward at once (it is not
in the decorator's exception tuple); a request error is retried until
tries run out and is then re-raised. -/
def search_medicine_go (cfg : ApiConfig) (oracle : Nat → ApiResponse)
    (st : ApiState) : Nat → Nat → SearchOutcome
  | attempt, 0 => ⟨.ok none, attempt, st⟩
  | attempt, left + 1 =>
    if check_api_limit cfg st then ⟨.ok none, attempt, st⟩
    else
      match oracle attempt with
      | .ok payload => ⟨.ok (some payload), attempt + 1, ⟨st.today_api_calls + 1⟩⟩
      | .jsonErr => ⟨.error .jsonErr, attempt + 1, st⟩
      | .reqErr =>
        if left = 0 then ⟨.error .reqErr, attempt + 1, st⟩
        else search_medicine_go cfg oracle st (attempt + 1) left

/-- `NaverAPIClient.search_medicine` (the effective decorated definition
at line 131).  The keyword, display clamp (`min display 100`) and start
offset only shape the request URL, which the oracle abstracts. -/
def search_medicine (cfg : ApiConfig) (oracle : Nat → ApiResponse)
    (st : ApiState) : SearchOutcome :=
  search_medicine_go cfg oracle st 0 cfg.maxTries

/-!
The record extractor (`crawler/parser.py`).  A parsed HTML page is
abstracted to the query results the extractor actually reads: each
`soup.find(...)` of a text-bearing element becomes an `Option String`
holding the element's text, and each `find_all` becomes a list.  The
strings carried by a page model are what `get_text()` returned for that
element.
-/

/-- `MEDICINE_PROFILE_ITEMS` of `config/settings.py` (also the local
`profile_mapping` of `SearchManager.process_medicine_data`), in
insertion order. -/
def MEDICINE_PROFILE_ITEMS : List (String × String) :=
  [("분류", "category"), ("구분", "type"), ("업체명", "company"),
   ("성상", "appearance"), ("보험코드", "insurance_code"), ("모양", "shape"),
   ("색깔", "color"), ("크기", "size"), ("식별표기", "identification")]

/-- `MEDICINE_SECTIONS` of `config/settings.py` (also the local
`section_mapping` of `SearchManager._map_section_title`). -/
def MEDICINE_SECTIONS : List (String × String) :=
  [("성분정보", "components"), ("효능효과", "efficacy"),
   ("주의사항", "precautions"), ("용법용량", "dosage"),
   ("저장방법", "storage"), ("사용기간", "period")]

/-- One `dl` block: its `dt` texts and `dd` texts in document order. -/
structure DlBlock where
  dts : List String
  dds : List String

/-- One `div.section` inside the main container, as the parser reads it:
the `h3` title and the three alternative content elements. -/
structure PSection where
  h3 : Option String
  contentDiv : Option String
  pTxt : Option String
  divTxt : Option String

/-- One block found by the alternate section selectors: its title tag
text and the text of `find(['p', 'div'], class_=['txt', 'content'])`. -/
structure AltSection where
  title : Option String
  content : Option String

/-- The main `div#size_ct` container, as read by the extractor phases. -/
structure ParserSizeCt where
  profileWrap : Option (List DlBlock)
  tmpProfile : Option DlBlock
  profileInfo : Option (List String)
  profileSection : Option (List String)
  sections : List PSection
  sectionContentDivs : List AltSection
  detailSectionDivs : List AltSection
  medicineInfoDivs : List AltSection
  typeImgSrc : Option String
  imgBoxInner : Option (Option String)
  medicineImgInner : Option (Option String)
  imageSectionInner : Option (Option String)

/-- The parsed page as `MedicineParser` reads it. -/
structure ParserSoup where
  title : Option String
  headword : Option String
  wordTxt : Option String
  cite : Option String
  metas : List String
  sizeCt : Option ParserSizeCt

/-- The label-to-field loop of the parser's profile phases: every mapping
entry whose term is contained in the label sets its field (no `break` in
`_extract_profile_from_wrap`/`_tmp`/`_sections`). -/
def applyProfileMapping (field_name field_value : String) (d : PyDict) : PyDict :=
  MEDICINE_PROFILE_ITEMS.foldl
    (fun d tm => if strContains field_name tm.1 then dictSet d tm.2 field_value else d)
    d

/-- The heading-to-field loop of the section phases: the first mapping
entry whose term is contained in the title sets its field (`break`). -/
def applySectionMapping (section_title section_content : String) (d : PyDict) : PyDict :=
  match MEDICINE_SECTIONS.find? (fun tm => strContains section_title tm.1) with
  | some tm => dictSet d tm.2 section_content
  | none => d

/-- `MedicineParser._extract_profile_from_wrap`: pair the `dt`/`dd` texts
of each `dl` of `div.profile_wrap` by index and apply the mapping;
reports success when the dictionary has more than one key. -/
def extract_profile_from_wrap (ct : ParserSizeCt) (d : PyDict) : PyDict × Bool :=
  match ct.profileWrap with
  | none => (d, false)
  | some dls =>
    let d := dls.foldl
      (fun d dl =>
        (List.range (min dl.dts.length dl.dds.length)).foldl
          (fun d i =>
            applyProfileMapping (clean_text (dl.dts.getD i ""))
              (clean_text (dl.dds.getD i "")) d)
          d)
      d
    (d, decide (1 < d.length))

/-- `MedicineParser._extract_profile_from_tmp`: same pairing over the
single `div.tmp_profile`. -/
def extract_profile_from_tmp (ct : ParserSizeCt) (d : PyDict) : PyDict × Bool :=
  match ct.tmpProfile with
  | none => (d, false)
  | some dl =>
    let d := (List.range (min dl.dts.length dl.dds.length)).foldl
      (fun d i =>
        applyProfileMapping (clean_text (dl.dts.getD i ""))
          (clean_text (dl.dds.getD i "")) d)
      d
    (d, decide (1 < d.length))

/-- `MedicineParser._extract_profile_from_sections`: over each present
alternate profile container, read the interleaved `dt`/`dd` item texts
pairwise and apply the mapping. -/
def extract_profile_from_sections (ct : ParserSizeCt) (d : PyDict) : PyDict × Bool :=
  let d := [ct.profileInfo, ct.profileSection].foldl
    (fun d alt =>
      match alt with
      | none => d
      | some items =>
        (List.range ((items.length + 1) / 2)).foldl
          (fun d j =>
            if 2 * j + 1 < items.length then
              applyProfileMapping (clean_text (items.getD (2 * j) ""))
                (clean_text (items.getD (2 * j + 1) "")) d
            else d)
          d)
    d
  (d, decide (1 < d.length))

/-- `MedicineParser._extract_sections_from_div`: for each `div.section`
with an `h3`, take the first present content element among `div.content`,
`p.txt`, `div.txt` and apply the section mapping. -/
def extract_sections_from_div (ct : ParserSizeCt) (d : PyDict) : PyDict × Bool :=
  let d := ct.sections.foldl
    (fun d sec =>
      match sec.h3 with
      | none => d
      | some t =>
        match (sec.contentDiv.orElse fun _ => sec.pTxt.orElse fun _ => sec.divTxt) with
        | none => d
        | some c => applySectionMapping (clean_text t) (clean_text c) d)
    d
  (d, decide (1 < d.length))

/-- Shared body for the alternate section selectors: blocks with both a
title tag and a content element apply the section mapping. -/
def applyAltSections (d : PyDict) (l : List AltSection) : PyDict :=
  l.foldl
    (fun d s =>
      match s.title with
      | none => d
      | some t =>
        match s.content with
        | none => d
        | some c => applySectionMapping (clean_text t) (clean_text c) d)
    d

/-- `MedicineParser._extract_sections_from_alternative_selectors`: all
three alternate configurations are processed in order. -/
def extract_sections_from_alternative_selectors (ct : ParserSizeCt) (d : PyDict) :
    PyDict × Bool :=
  let d := applyAltSections d ct.sectionContentDivs
  let d := applyAltSections d ct.detailSectionDivs
  let d := applyAltSections d ct.medicineInfoDivs
  (d, decide (1 < d.length))

/-- `urllib.parse.urljoin('https://terms.naver.com', url)` for the href
shapes that occur (absolute, scheme-relative, root-relative, relative). -/
def urljoinTerms (url : String) : String :=
  if strStartsWith url "http://" || strStartsWith url "https://" then url
  else if strStartsWith url "//" then "https:" ++ url
  else if strStartsWith url "/" then "https://terms.naver.com" ++ url
  else "https://terms.naver.com/" ++ url

/-- `MedicineParser._extract_image_from_type_img`. -/
def extract_image_from_type_img (ct : ParserSizeCt) (d : PyDict) : PyDict × Bool :=
  match ct.typeImgSrc with
  | some src => (dictSet d "image_url" (urljoinTerms src), true)
  | none => (d, false)

/-- The selector loop of
`MedicineParser._extract_image_from_alternative_selectors`: the first
present container whose inner `img` has a `src` wins.  (`find('img')` on
the `img.medicine_img` element searches its descendants, so that
selector never yields a source itself.) -/
def imgAltGo (d : PyDict) : List (Option (Option String)) → PyDict × Bool
  | [] => (d, false)
  | none :: rest => imgAltGo d rest
  | some none :: rest => imgAltGo d rest
  | some (some src) :: _ => (dictSet d "image_url" (urljoinTerms src), true)

/-- `MedicineParser._extract_image_from_alternative_selectors`. -/
def extract_image_from_alternative_selectors (ct : ParserSizeCt) (d : PyDict) :
    PyDict × Bool :=
  imgAltGo d [ct.imgBoxInner, ct.medicineImgInner, ct.imageSectionInner]

/-- `MedicineParser.is_medicine_dictionary`: URL pattern gate, redirect
detection on the page title, `h2.headword` presence, and the medicine
keyword in the `p.cite` text or in some meta tag content. -/
def is_medicine_dictionary (soup : ParserSoup) (url : String) : Bool :=
  if !(strContains url "cid=51000") || !(strContains url "terms.naver.com/entry.naver") then
    false
  else
    match soup.title with
    | none => false
    | some t =>
      if strContains t "네이버 지식백과" && !(strContains t "의약품사전") then false
      else
        match soup.headword with
        | none => false
        | some _ =>
          (match soup.cite with
           | some c => strContains c "의약품사전"
           | none => false) ||
          soup.metas.any (fun c => strContains c "의약품")

/-- `MedicineParser.parse_medicine_detail`: classify, require the main
container, run the name extraction and the three phase chains (each chain
stops at the first method reporting success), then attach `data_hash`
computed over the accumulated dictionary.  There is no final check that
any field beyond `url` was populated. -/
def parse_medicine_detail (soup : ParserSoup) (url : String) : Option PyDict :=
  if !(is_medicine_dictionary soup url) then none
  else
    match soup.sizeCt with
    | none => none
    | some ct =>
      let d : PyDict := [("url", url)]
      let d := match soup.headword with
        | some t => dictSet d "korean_name" (clean_text t)
        | none => d
      let d := match soup.wordTxt with
        | some t => dictSet d "english_name" (clean_text t)
        | none => d
      let pw := extract_profile_from_wrap ct d
      let d := if pw.2 then pw.1 else
        let pt := extract_profile_from_tmp ct pw.1
        if pt.2 then pt.1 else (extract_profile_from_sections ct pt.1).1
      let sd := extract_sections_from_div ct d
      let d := if sd.2 then sd.1 else
        (extract_sections_from_alternative_selectors ct sd.1).1
      let im := extract_image_from_type_img ct d
      let d := if im.2 then im.1 else
        (extract_image_from_alternative_selectors ct im.1).1
      let d := dictSet d "data_hash" (generate_data_hash d)
      some d

/-!
The discovery/processing manager (`crawler/search_manager.py`).
-/

/-- The `div.headword_title` block as `process_medicine_data` reads it
(texts are the `get_text(strip=True)` results). -/
structure HeadwordTitle where
  headword : Option String
  wordTxt : Option String

/-- One `div.section` as `process_medicine_data` reads it. -/
structure SMSection where
  h3 : Option String
  pTxt : Option String

/-- A detail page as `SearchManager.process_medicine_data` reads it.
`imgSrc` is the raw `src` found by `_extract_medicine_image_url`'s
selector chain, when any. -/
structure DetailPage where
  headwordTitle : Option HeadwordTitle
  tmpProfile : Option DlBlock
  sizeCtSections : Option (List SMSection)
  imgSrc : Option String

/-- `SearchManager._map_section_title`: the first mapping entry whose
keyword is contained in the title. -/
def map_section_title (title : String) : Option String :=
  (MEDICINE_SECTIONS.find? (fun km => strContains title km.1)).map Prod.snd

/-- The final guard of `process_medicine_data`:
`if len(medicine_data) <= 1: return None` (url-only dictionaries are
discarded), else the dictionary is returned. -/
def processFinalize (d : PyDict) : Option PyDict :=
  if d.length ≤ 1 then none else some d

/-- `SearchManager.process_medicine_data` after the HTML fetch: `none`
when the fetch failed, otherwise run the four extraction steps and
return `none` when the dictionary still has at most the `url` key
(`len(medicine_data) <= 1`).  `downloadResult` is the local path that
`download_image` returned, when the image download succeeded. -/
def process_medicine_data (page : Option DetailPage) (downloadResult : Option String)
    (url : String) : Option PyDict :=
  match page with
  | none => none
  | some pg =>
    let d : PyDict := [("url", url)]
    let d := match pg.headwordTitle with
      | none => d
      | some ht =>
        let d := match ht.headword with
          | some t => dictSet d "korean_name" t
          | none => d
        match ht.wordTxt with
        | some t => dictSet d "english_name" t
        | none => d
    let d := match pg.tmpProfile with
      | none => d
      | some dl =>
        (dl.dts.zip dl.dds).foldl
          (fun d p =>
            match MEDICINE_PROFILE_ITEMS.find? (fun km => strContains p.1 km.1) with
            | some km => dictSet d km.2 p.2
            | none => d)
          d
    let d := match pg.sizeCtSections with
      | none => d
      | some secs =>
        secs.foldl
          (fun d s =>
            match s.h3 with
            | none => d
            | some t =>
              match s.pTxt with
              | none => d
              | some c =>
                match map_section_title t with
                | some key => dictSet d key c
                | none => d)
          d
    let d : PyDict := match pg.imgSrc with
      | none => d
      | some src =>
        let d := dictSet d "image_url" (urljoinTerms src)
        match downloadResult with
        | some p => dictSet d "image_path" p
        | none => d
    processFinalize d

/-- A listing page as `fetch_medicine_list_from_search` reads it:
the li items of the first matching list selector (each item carrying the
hrefs of its anchors in document order), the direct anchors of the list
container (the fallback when there are no li items), and every anchor of
the whole page (used by the second, retry pass). -/
structure ListingPage where
  listWrap : Option (List (List String))
  listWrapAnchors : List String
  allAnchors : List String

/-- The link filter of the listing scraper:
`'cid=51000' in href and 'entry.naver' in href`. -/
def isMedicineHref (href : String) : Bool :=
  strContains href "cid=51000" && strContains href "entry.naver"

/-- The listing scraper's absolutization:
`f"https://terms.naver.com{href}" if not href.startswith('http') else href`. -/
def absolutizeHref (href : String) : String :=
  if strStartsWith href "http" then href else "https://terms.naver.com" ++ href

/-- The per-item link extraction of the first pass: the first anchor of
each item, kept when it matches the medicine pattern. -/
def firstPassLinks (items : List (List String)) : List String :=
  items.foldl
    (fun acc item =>
      match item.head? with
      | none => acc
      | some href =>
        if isMedicineHref href then acc ++ [absolutizeHref href] else acc)
    []

/-- One first-pass page: `none` marks a failed page (no list container,
or an empty container with no anchors either).  When the container has
no li items the code retries with its anchors as items, but `find('a')`
on an anchor searches its descendants and yields nothing, so that
fallback contributes no links. -/
def firstPassPage (pg : ListingPage) : Option (List String) :=
  match pg.listWrap with
  | none => none
  | some items =>
    if items.isEmpty then
      if pg.listWrapAnchors.isEmpty then none
      else some (firstPassLinks (pg.listWrapAnchors.map (fun _ => [])))
    else some (firstPassLinks items)

/-- `SearchManager.fetch_medicine_list_from_search`: walk the page range
(capped at page 100), collect links page by page, retry failed pages in
a second pass that scans every anchor of the page, and de-duplicate at
the end.  `fetchPage` abstracts `get_html_content` plus parsing: `none`
is a failed fetch.  The final `list(set(...))` has unspecified order;
`List.dedup` (keep first occurrences) stands in for it. -/
def fetch_medicine_list_from_search (fetchPage : Nat → Option ListingPage)
    (start_page max_pages : Nat) : List String :=
  let end_page := min (start_page + max_pages) 101
  let firstPass :=
    (List.range' start_page (end_page - start_page)).foldl
      (fun (acc : List String × List Nat) n =>
        match fetchPage n with
        | none => (acc.1, acc.2 ++ [n])
        | some pg =>
          match firstPassPage pg with
          | none => (acc.1, acc.2 ++ [n])
          | some links => (acc.1 ++ links, acc.2))
      ([], [])
  let medicine_urls :=
    firstPass.2.foldl
      (fun acc n =>
        match fetchPage n with
        | none => acc
        | some pg =>
          acc ++ ((pg.allAnchors.filter isMedicineHref).map absolutizeHref))
      firstPass.1
  medicine_urls.dedup

/-!
Association-list lemmas for `PyDict`.
-/

theorem dictGet_set_self (d : PyDict) (k v : String) :
    dictGet (dictSet d k v) k = some v := by
  induction d with
  | nil => simp [dictSet, dictGet]
  | cons p rest ih =>
    by_cases h : p.1 = k
    · simp [dictSet, dictGet, h]
    · simp [dictSet, dictGet, h, ih]

theorem dictGet_set_ne (d : PyDict) (k' v k : String) (h : k' ≠ k) :
    dictGet (dictSet d k' v) k = dictGet d k := by
  induction d with
  | nil => simp [dictSet, dictGet, h]
  | cons p rest ih =>
    by_cases hp : p.1 = k'
    · simp [dictSet, dictGet, hp, h]
    · simp [dictSet, dictGet, hp, ih]

theorem dictHasKey_set (d : PyDict) (k' v k : String)
    (h : dictHasKey d k = true) : dictHasKey (dictSet d k' v) k = true := by
  induction d with
  | nil => simp [dictHasKey] at h
  | cons p rest ih =>
    by_cases hp : p.1 = k'
    · by_cases hk : p.1 = k
      · simp [dictSet, dictHasKey, hp, hp ▸ hk.symm]
      · have h' : dictHasKey rest k = true := by simpa [dictHasKey, hk] using h
        simp [dictSet, dictHasKey, hp, h']
    · by_cases hk : p.1 = k
      · have hkk : ¬ k = k' := fun he => hp (hk.trans he)
        simp [dictSet, dictHasKey, hp, hk, hkk]
      · have h' : dictHasKey rest k = true := by simpa [dictHasKey, hk] using h
        simp [dictSet, dictHasKey, hp, hk, ih h']

theorem dictHasKey_set_self (d : PyDict) (k v : String) :
    dictHasKey (dictSet d k v) k = true := by
  induction d with
  | nil => simp [dictSet, dictHasKey]
  | cons p rest ih =>
    by_cases h : p.1 = k
    · simp [dictSet, dictHasKey, h]
    · simp [dictSet, dictHasKey, h, ih]

theorem dictHasKey_append (d l : PyDict) (k : String)
    (h : dictHasKey d k = true) : dictHasKey (d ++ l) k = true := by
  induction d with
  | nil => simp [dictHasKey] at h
  | cons p rest ih =>
    by_cases hk : p.1 = k
    · simp [dictHasKey, hk]
    · have h' : dictHasKey rest k = true := by simpa [dictHasKey, hk] using h
      simp [dictHasKey, hk, ih h']

theorem dictGet_append_left (d l : PyDict) (k : String)
    (h : dictHasKey d k = true) : dictGet (d ++ l) k = dictGet d k := by
  induction d with
  | nil => simp [dictHasKey] at h
  | cons p rest ih =>
    by_cases hk : p.1 = k
    · simp [dictGet, hk]
    · have h' : dictHasKey rest k = true := by simpa [dictHasKey, hk] using h
      simp [dictGet, hk, ih h']

theorem dictGet_eq_none_of_hasKey_false (d : PyDict) (k : String)
    (h : dictHasKey d k = false) : dictGet d k = none := by
  induction d with
  | nil => simp [dictGet]
  | cons p rest ih =>
    by_cases hk : p.1 = k
    · simp [dictHasKey, hk] at h
    · have h' : dictHasKey rest k = false := by simpa [dictHasKey, hk] using h
      simp [dictGet, hk, ih h']

theorem dictHasKey_iff_mem (d : PyDict) (k : String) :
    dictHasKey d k = true ↔ k ∈ dictKeys d := by
  induction d with
  | nil => simp [dictHasKey, dictKeys]
  | cons p rest ih =>
    by_cases hk : p.1 = k
    · simp [dictHasKey, dictKeys, hk]
    · simp [dictHasKey, dictKeys, hk, ih, Ne.symm hk]

/-- Unfolding one step of `merge_dicts`. -/
theorem merge_dicts_cons (d1 : PyDict) (kv : String × String) (rest : PyDict) :
    merge_dicts d1 (kv :: rest) =
      merge_dicts
        (if dictHasKey d1 kv.1 then
          if truthy kv.2 then dictSet d1 kv.1 kv.2 else d1
        else d1 ++ [kv]) rest := rfl

theorem dictHasKey_merge_dicts (k : String) (d2 : PyDict) :
    ∀ d1 : PyDict, dictHasKey d1 k = true →
    dictHasKey (merge_dicts d1 d2) k = true := by
  induction d2 with
  | nil => intro d1 h; simpa [merge_dicts] using h
  | cons kv rest ih =>
    intro d1 h
    rw [merge_dicts_cons]
    by_cases hcont : dictHasKey d1 kv.1 = true
    · rw [if_pos hcont]
      by_cases htr : truthy kv.2 = true
      · rw [if_pos htr]
        exact ih _ (dictHasKey_set d1 kv.1 kv.2 k h)
      · rw [if_neg htr]
        exact ih _ h
    · rw [if_neg hcont]
      exact ih _ (dictHasKey_append d1 [kv] k h)

/-- Lookup in a merge: for a key of `dict1` (and a `dict2` without
duplicate keys, as every Python dictionary is), a truthy `dict2` value
wins, anything else keeps the `dict1` value. -/
theorem dictGet_merge_dicts (k : String) (d2 : PyDict) :
    ∀ d1 : PyDict, (dictKeys d2).Nodup → dictHasKey d1 k = true →
    dictGet (merge_dicts d1 d2) k =
      match dictGet d2 k with
      | some v => if truthy v then some v else dictGet d1 k
      | none => dictGet d1 k := by
  induction d2 with
  | nil =>
    intro d1 _ _
    simp [merge_dicts, dictGet]
  | cons kv rest ih =>
    intro d1 hnd hk
    have hcons : dictKeys (kv :: rest) = kv.1 :: dictKeys rest := rfl
    rw [hcons] at hnd
    have hnd' : (dictKeys rest).Nodup := hnd.of_cons
    rw [merge_dicts_cons]
    by_cases hkk : kv.1 = k
    · have hnotmem : kv.1 ∉ dictKeys rest := (List.nodup_cons.mp hnd).1
      have hfalse : dictHasKey rest k = false := by
        cases hfk : dictHasKey rest k with
        | false => rfl
        | true =>
          exact absurd ((dictHasKey_iff_mem rest k).mp hfk) (hkk ▸ hnotmem)
      have hrest : dictGet rest k = none :=
        dictGet_eq_none_of_hasKey_false rest k hfalse
      have hget2 : dictGet (kv :: rest) k = some kv.2 := by
        simp [dictGet, hkk]
      have hcont : dictHasKey d1 kv.1 = true := by rw [hkk]; exact hk
      rw [hget2, if_pos hcont]
      by_cases htr : truthy kv.2 = true
      · rw [if_pos htr]
        rw [ih _ hnd' (dictHasKey_set d1 kv.1 kv.2 k hk), hrest]
        have hset : dictGet (dictSet d1 kv.1 kv.2) k = some kv.2 := by
          rw [hkk]; exact dictGet_set_self d1 k kv.2
        simp [hset, htr]
      · rw [if_neg htr]
        rw [ih _ hnd' hk, hrest]
        simp [htr]
    · have hget2 : dictGet (kv :: rest) k = dictGet rest k := by
        simp [dictGet, hkk]
      rw [hget2]
      by_cases hcont : dictHasKey d1 kv.1 = true
      · rw [if_pos hcont]
        by_cases htr : truthy kv.2 = true
        · rw [if_pos htr]
          rw [ih _ hnd' (dictHasKey_set d1 kv.1 kv.2 k hk)]
          rw [dictGet_set_ne d1 kv.1 kv.2 k hkk]
        · rw [if_neg htr]
          exact ih _ hnd' hk
      · rw [if_neg hcont]
        rw [ih _ hnd' (dictHasKey_append d1 [kv] k hk)]
        rw [dictGet_append_left d1 [kv] k hk]

theorem dictGet_keyed_map (keys : List String) (val : String → String)
    (f : String) (hf : f ∈ keys) :
    dictGet (keys.map (fun k => (k, val k))) f = some (val f) := by
  induction keys with
  | nil => simp at hf
  | cons k rest ih =>
    by_cases hk : k = f
    · simp [dictGet, hk]
    · have hf' : f ∈ rest := by
        rcases List.mem_cons.mp hf with h | h
        · exact absurd h.symm hk
        · exact h
      simp [dictGet, hk, ih hf']

/-!
Lemmas about the update path of the persistence gateway.
-/

theorem dictKeys_rowAsDict (r : MedRow) :
    dictKeys (rowAsDict r) = MEDICINE_SCHEMA_KEYS := by
  have h1 : dictKeys (rowAsDict r) =
      "id" :: ((MEDICINE_SCHEMA_KEYS.drop 1).map
        (fun f => (f, (dictGet r.data f).getD ""))).map Prod.fst := rfl
  rw [h1, List.map_map]
  have h2 : (Prod.fst ∘ fun f => (f, (dictGet r.data f).getD "")) =
      fun f : String => f := rfl
  rw [h2, List.map_id']
  rfl

theorem dictHasKey_rowAsDict (r : MedRow) (f : String)
    (hf : f ∈ MEDICINE_SCHEMA_KEYS) : dictHasKey (rowAsDict r) f = true := by
  rw [dictHasKey_iff_mem, dictKeys_rowAsDict]
  exact hf

theorem dictGet_rowAsDict (r : MedRow) (f : String)
    (hf : f ∈ MEDICINE_SCHEMA_KEYS.drop 1) :
    dictGet (rowAsDict r) f = some ((dictGet r.data f).getD "") := by
  have hfid : f ≠ "id" := by
    intro h
    subst h
    revert hf
    decide
  have h1 : rowAsDict r = ("id", toString r.id) ::
      (MEDICINE_SCHEMA_KEYS.drop 1).map
        (fun f => (f, (dictGet r.data f).getD "")) := rfl
  rw [h1]
  show (if "id" = f then some (toString r.id) else _) = _
  rw [if_neg (Ne.symm hfid)]
  exact dictGet_keyed_map _ _ f hf

theorem dictHasKey_updateMerged (r : MedRow) (now : String) (m : PyDict)
    (f : String) (hf : f ∈ MEDICINE_SCHEMA_KEYS) :
    dictHasKey (updateMerged r now m) f = true := by
  unfold updateMerged mergedRecord
  exact dictHasKey_set _ _ _ _
    (dictHasKey_set _ _ _ _
      (dictHasKey_merge_dicts f m (rowAsDict r) (dictHasKey_rowAsDict r f hf)))

theorem dictGet_updateWritten (r : MedRow) (now : String) (m : PyDict)
    (f : String) (hf : f ∈ MEDICINE_SCHEMA_KEYS) (hid : f ≠ "id") :
    dictGet (updateWritten r now m) f =
      some ((dictGet (updateMerged r now m) f).getD "") := by
  unfold updateWritten
  apply dictGet_keyed_map
  apply List.mem_filter.mpr
  refine ⟨hf, ?_⟩
  simp [hid, dictHasKey_updateMerged r now m f hf]

theorem dictGet_updateMerged_of_ne (r : MedRow) (now : String) (m : PyDict)
    (f : String) (hnd : (dictKeys m).Nodup) (hf : f ∈ MEDICINE_SCHEMA_KEYS)
    (h1 : f ≠ "updated_at") (h2 : f ≠ "data_hash") :
    dictGet (updateMerged r now m) f =
      match dictGet m f with
      | some v => if truthy v then some v else dictGet (rowAsDict r) f
      | none => dictGet (rowAsDict r) f := by
  unfold updateMerged mergedRecord
  rw [dictGet_set_ne _ _ _ _ (Ne.symm h2), dictGet_set_ne _ _ _ _ (Ne.symm h1)]
  exact dictGet_merge_dicts f m (rowAsDict r) hnd (dictHasKey_rowAsDict r f hf)

theorem dictGet_updateMerged_updated_at (r : MedRow) (now : String) (m : PyDict) :
    dictGet (updateMerged r now m) "updated_at" = some now := by
  unfold updateMerged mergedRecord
  rw [dictGet_set_ne _ _ _ _ (by decide : "data_hash" ≠ "updated_at")]
  exact dictGet_set_self _ _ _

theorem dictGet_updateMerged_data_hash (r : MedRow) (now : String) (m : PyDict) :
    dictGet (updateMerged r now m) "data_hash" =
      some (generate_data_hash (mergedRecord r now m)) := by
  unfold updateMerged
  exact dictGet_set_self _ _ _

/-!
Claim theorems.
-/

/-- C2 (counterexample): the spec says `data_hash` excludes the `url`,
but `generate_data_hash` only excludes `id`, `created_at`, `updated_at`
and `data_hash`; two records that agree everywhere except the `url` hash
differently, because the url is part of the hash input. -/
theorem generate_data_hash_depends_on_url :
    generate_data_hash [("url", "a"), ("korean_name", "x")] ≠
      generate_data_hash [("url", "b"), ("korean_name", "x")] := by
  intro hcontra
  have h1 : generate_data_hash [("url", "a"), ("korean_name", "x")] =
      "87261fdc2cc8fca71a66013eb2190181" := by rfl
  have h2 : generate_data_hash [("url", "b"), ("korean_name", "x")] =
      "73fa0ae872781e8d9d63f56b46b613e6" := by rfl
  rw [h1, h2] at hcontra
  exact absurd hcontra (by decide)

/-- C2 (amended): `data_hash` is a function of exactly the non-empty
fields other than `id`, `created_at`, `updated_at` and `data_hash`
itself — the `url` is retained: two records whose retained fields agree
(in order) hash identically. -/
theorem generate_data_hash_function_of_retained_fields
    (d1 d2 : PyDict)
    (h : d1.filter
          (fun p => !(["id", "created_at", "updated_at", "data_hash"].contains p.1)) =
         d2.filter
          (fun p => !(["id", "created_at", "updated_at", "data_hash"].contains p.1))) :
    generate_data_hash d1 = generate_data_hash d2 := by
  have hsplit : ∀ d : PyDict,
      d.filter
        (fun p => !(["id", "created_at", "updated_at", "data_hash"].contains p.1) &&
          truthy p.2) =
      (d.filter
        (fun p => !(["id", "created_at", "updated_at", "data_hash"].contains p.1))).filter
        (fun p => truthy p.2) := by
    intro d
    rw [List.filter_filter]
    exact List.filter_congr (fun a _ => Bool.and_comm _ _)
  simp only [generate_data_hash]
  rw [hsplit d1, hsplit d2, h]

/-- C2 (witness for the amended theorem): changing only `created_at` and
`id` leaves the hash unchanged. -/
theorem generate_data_hash_function_of_retained_fields_witness :
    ([("korean_name", "x"), ("created_at", "2020-01-01")] : PyDict).filter
        (fun p => !(["id", "created_at", "updated_at", "data_hash"].contains p.1)) =
      ([("korean_name", "x"), ("created_at", "2021-09-09"), ("id", "7")] : PyDict).filter
        (fun p => !(["id", "created_at", "updated_at", "data_hash"].contains p.1)) ∧
    generate_data_hash [("korean_name", "x"), ("created_at", "2020-01-01")] =
      generate_data_hash [("korean_name", "x"), ("created_at", "2021-09-09"), ("id", "7")] :=
  ⟨by decide,
   generate_data_hash_function_of_retained_fields _ _ (by decide)⟩

/-- C3 (counterexample): the claim calls a record with `korean_name`,
`url` and only `company` populated valid, but `Medicine.is_valid`
requires at least two filled fields among `english_name`, `company`,
`efficacy`, `dosage`, `precautions`, so the record is rejected. -/
theorem is_valid_rejects_company_only :
    medicine_is_valid
      [("korean_name", "타이레놀"),
       ("url", "https://terms.naver.com/entry.naver?docId=2&cid=51000"),
       ("company", "동아제약")] = false := by
  decide

/-- C3 (amended): a record is valid exactly when `korean_name` and `url`
are non-empty and at least two of `english_name`, `company`, `efficacy`,
`dosage`, `precautions` are non-empty (`category` and `components` play
no role). -/
theorem is_valid_iff_two_important_fields (m : PyDict) :
    medicine_is_valid m = true ↔
      truthy ((dictGet m "korean_name").getD "") = true ∧
      truthy ((dictGet m "url").getD "") = true ∧
      2 ≤ (["english_name", "company", "efficacy", "dosage", "precautions"].filter
            (fun f => truthy ((dictGet m f).getD ""))).length := by
  unfold medicine_is_valid
  by_cases h1 : truthy ((dictGet m "korean_name").getD "") = true
  · by_cases h2 : truthy ((dictGet m "url").getD "") = true
    · by_cases h3 :
        (["english_name", "company", "efficacy", "dosage", "precautions"].filter
          (fun f => truthy ((dictGet m f).getD ""))).length < 2
      · simp [h1, h2, h3]
      · simp [h1, h2, h3]
        omega
    · simp [h1, h2]
  · simp [h1]

/-!
Order properties of the Python string comparison, needed to reason about
the sorting step of `generate_data_hash`.
-/

theorem lexLe_total : ∀ a b : List Char, lexLe a b = true ∨ lexLe b a = true := by
  intro a
  induction a with
  | nil => intro b; left; rfl
  | cons x xs ih =>
    intro b
    cases b with
    | nil => right; rfl
    | cons y ys =>
      by_cases h1 : x.toNat < y.toNat
      · left; simp [lexLe, h1]
      · by_cases h2 : y.toNat < x.toNat
        · right; simp [lexLe, h2]
        · rcases ih ys with h | h
          · left; simp [lexLe, h1, h2, h]
          · right; simp [lexLe, h1, h2, h]

theorem lexLe_trans : ∀ a b c : List Char,
    lexLe a b = true → lexLe b c = true → lexLe a c = true := by
  intro a
  induction a with
  | nil => intro b c _ _; rfl
  | cons x xs ih =>
    intro b c hab hbc
    cases b with
    | nil => simp [lexLe] at hab
    | cons y ys =>
      cases c with
      | nil => simp [lexLe] at hbc
      | cons z zs =>
        by_cases hxy : x.toNat < y.toNat <;>
          by_cases hyx : y.toNat < x.toNat <;>
            by_cases hyz : y.toNat < z.toNat <;>
              by_cases hzy : z.toNat < y.toNat <;>
                simp [lexLe, hxy, hyx, hyz, hzy] at hab hbc ⊢ <;>
                  first
                    | rfl
                    | omega
                    | exact ih ys zs hab hbc
                    | (have hxz : ¬ x.toNat < z.toNat := by omega
                       have hzx : ¬ z.toNat < x.toNat := by omega
                       simp [hxz, hzx]
                       first
                         | exact ih ys zs hab hbc
                         | exact ⟨by omega, ih ys zs hab hbc⟩)

theorem lexLe_antisymm : ∀ a b : List Char,
    lexLe a b = true → lexLe b a = true → a = b := by
  intro a
  induction a with
  | nil =>
    intro b _ hba
    cases b with
    | nil => rfl
    | cons y ys => simp [lexLe] at hba
  | cons x xs ih =>
    intro b hab hba
    cases b with
    | nil => simp [lexLe] at hab
    | cons y ys =>
      simp only [lexLe] at hab hba
      by_cases h1 : x.toNat < y.toNat
      · simp [h1, Nat.lt_asymm h1] at hba
      · by_cases h2 : y.toNat < x.toNat
        · simp [h1, h2] at hab
        · have hxy : x = y := by
            have hn : x.toNat = y.toNat := by omega
            have := congrArg Char.ofNat hn
            rwa [Char.ofNat_toNat, Char.ofNat_toNat] at this
          have hxs : xs = ys := by
            apply ih
            · simpa [h1, h2] using hab
            · simpa [h1, h2, hxy] using hba
          rw [hxy, hxs]

instance : IsTotal String (fun a b => pyStrLe a b = true) :=
  ⟨fun a b => lexLe_total a.data b.data⟩

instance : IsTrans String (fun a b => pyStrLe a b = true) :=
  ⟨fun a b c => lexLe_trans a.data b.data c.data⟩

instance : IsAntisymm String (fun a b => pyStrLe a b = true) :=
  ⟨fun a b hab hba => by
    have := lexLe_antisymm a.data b.data hab hba
    cases a; cases b
    exact congrArg String.mk this⟩

/-- C5: `generate_data_hash` is deterministic and insertion-order
independent: permuting the order in which a record's fields were
inserted leaves the hash unchanged, because the rendered fields are
sorted before joining and hashing (determinism is the reflexive case). -/
theorem generate_data_hash_perm_invariant (d1 d2 : PyDict)
    (hp : d1.Perm d2) :
    generate_data_hash d1 = generate_data_hash d2 := by
  simp only [generate_data_hash]
  congr 1
  congr 1
  refine List.eq_of_perm_of_sorted ?_
    (List.sorted_insertionSort _ _) (List.sorted_insertionSort _ _)
  exact ((List.perm_insertionSort _ _).trans
    ((hp.filter _).map _)).trans (List.perm_insertionSort _ _).symm

/-- C5 (witness): a concrete two-field record permuted. -/
theorem generate_data_hash_perm_invariant_witness :
    ([("korean_name", "x"), ("url", "u")] : PyDict).Perm
      [("url", "u"), ("korean_name", "x")] ∧
    generate_data_hash [("korean_name", "x"), ("url", "u")] =
      generate_data_hash [("url", "u"), ("korean_name", "x")] :=
  ⟨by decide, generate_data_hash_perm_invariant _ _ (by decide)⟩

/-- C6: once the daily counter has reached the configured ceiling, both
fetch operations return null immediately: no network request is issued,
the counter is not incremented, and no exception is raised (the search
outcome is `.ok`, not `.error`). -/
theorem daily_limit_soft_stop (cfg : ApiConfig) (st : ApiState)
    (follow : Bool) (oraH : Nat → HttpResponse) (oraS : Nat → ApiResponse)
    (h : cfg.dailyLimit ≤ st.today_api_calls) :
    get_html_content cfg follow oraH st = ⟨none, 0, [], st⟩ ∧
    search_medicine cfg oraS st = ⟨.ok none, 0, st⟩ := by
  have hlim : check_api_limit cfg st = true := by
    unfold check_api_limit
    simpa using h
  constructor
  · unfold get_html_content
    rw [hlim]
    rfl
  · unfold search_medicine
    cases cfg.maxTries with
    | zero => rfl
    | succ n =>
      unfold search_medicine_go
      rw [hlim]
      rfl

/-- C6 (witness): a client that already made as many calls as the daily
ceiling allows. -/
theorem daily_limit_soft_stop_witness :
    (⟨25000, 3, 3, 1⟩ : ApiConfig).dailyLimit ≤ (⟨25000⟩ : ApiState).today_api_calls ∧
    get_html_content ⟨25000, 3, 3, 1⟩ true (fun _ => .netErr) ⟨25000⟩ =
      ⟨none, 0, [], ⟨25000⟩⟩ ∧
    search_medicine ⟨25000, 3, 3, 1⟩ (fun _ => .reqErr) ⟨25000⟩ =
      ⟨.ok none, 0, ⟨25000⟩⟩ := by
  have h := daily_limit_soft_stop ⟨25000, 3, 3, 1⟩ ⟨25000⟩ true
    (fun _ => .netErr) (fun _ => .reqErr) (by decide)
  exact ⟨by decide, h.1, h.2⟩

/-- The HTML retry loop under a permanently failing connection: every
attempt raises, each retry waits `REQUEST_DELAY * (attempt + 1)`, and
after the last attempt the loop returns null with the counter untouched. -/
theorem get_html_content_go_netErr (cfg : ApiConfig) (follow : Bool)
    (oracle : Nat → HttpResponse) (st : ApiState)
    (h : ∀ i, oracle i = .netErr) :
    ∀ (left attempt : Nat) (delays : List Nat), 1 ≤ left →
    get_html_content_go cfg follow oracle st attempt left delays =
      ⟨none, attempt + left,
       delays ++ (List.range (left - 1)).map
         (fun j => cfg.requestDelay * (attempt + j + 1)), st⟩ := by
  intro left
  induction left with
  | zero => intro attempt delays h1; omega
  | succ n ih =>
    intro attempt delays _
    unfold get_html_content_go
    rw [h attempt]
    cases n with
    | zero => simp
    | succ k =>
      have h1lt : 1 < k + 1 + 1 := by omega
      simp only [if_pos h1lt]
      rw [ih (attempt + 1) (delays ++ [cfg.requestDelay * (attempt + 1)]) (by omega)]
      have harith : attempt + 1 + (k + 1) = attempt + (k + 1 + 1) := by omega
      have hdel : (delays ++ [cfg.requestDelay * (attempt + 1)]) ++
            (List.range (k + 1 - 1)).map
              (fun j => cfg.requestDelay * (attempt + 1 + j + 1)) =
          delays ++ (List.range (k + 1 + 1 - 1)).map
            (fun j => cfg.requestDelay * (attempt + j + 1)) := by
        rw [List.append_assoc]
        congr 1
        have hr : k + 1 + 1 - 1 = (k + 1 - 1) + 1 := by omega
        rw [hr, List.range_succ_eq_map, List.map_cons, List.map_map]
        simp only [List.singleton_append]
        congr 1
        all_goals simp
        all_goals
          intro a _
          exact Or.inl (by omega)
      rw [harith, hdel]

/-- C7: under the daily ceiling, a first-response 404 makes
`get_html_content` return null after exactly one network attempt with no
retry and no sleep, while a connection error on every attempt is retried
until the configured maximum number of attempts with strictly increasing
delays before null is returned; neither case raises (the loop catches
request exceptions and returns null). -/
theorem fetch_404_no_retry_and_neterr_retries (cfg : ApiConfig)
    (follow : Bool) (st : ApiState) (ora404 oraErr : Nat → HttpResponse)
    (hlim : st.today_api_calls < cfg.dailyLimit)
    (hmr : 1 ≤ cfg.maxRetries)
    (hd : 0 < cfg.requestDelay)
    (h404 : ora404 0 = .notFound)
    (herr : ∀ i, oraErr i = .netErr) :
    get_html_content cfg follow ora404 st = ⟨none, 1, [], st⟩ ∧
    get_html_content cfg follow oraErr st =
      ⟨none, cfg.maxRetries,
       (List.range (cfg.maxRetries - 1)).map
         (fun j => cfg.requestDelay * (j + 1)), st⟩ ∧
    ((List.range (cfg.maxRetries - 1)).map
      (fun j => cfg.requestDelay * (j + 1))).Pairwise (· < ·) := by
  have hnotlim : check_api_limit cfg st = false := by
    unfold check_api_limit
    simp
    omega
  obtain ⟨k, hk⟩ : ∃ k, cfg.maxRetries = k + 1 := ⟨cfg.maxRetries - 1, by omega⟩
  refine ⟨?_, ?_, ?_⟩
  · unfold get_html_content
    rw [hnotlim, hk]
    unfold get_html_content_go
    rw [h404]
    simp
  · unfold get_html_content
    rw [hnotlim]
    rw [get_html_content_go_netErr cfg follow oraErr st herr cfg.maxRetries 0 [] hmr]
    simp
  · refine (List.pairwise_lt_range _).map _ ?_
    intro a b hab
    exact mul_lt_mul_of_pos_left (by omega) hd

/-- C7 (witness): default configuration (3 attempts): 404 answers after
one attempt with no sleeps; persistent connection errors answer after 3
attempts with the increasing delays `[1, 2]`. -/
theorem fetch_404_no_retry_and_neterr_retries_witness :
    get_html_content ⟨25000, 3, 3, 1⟩ true (fun _ => .notFound) ⟨0⟩ =
      ⟨none, 1, [], ⟨0⟩⟩ ∧
    get_html_content ⟨25000, 3, 3, 1⟩ true (fun _ => .netErr) ⟨0⟩ =
      ⟨none, 3, [1, 2], ⟨0⟩⟩ := by
  have h := fetch_404_no_retry_and_neterr_retries ⟨25000, 3, 3, 1⟩ true ⟨0⟩
    (fun _ => .notFound) (fun _ => .netErr) (by decide) (by decide) (by decide)
    rfl (fun _ => rfl)
  exact ⟨h.1, h.2.1⟩

/-- The `div#size_ct` container of a classified page on which every
extraction phase finds nothing. -/
def parserEmptyCt : ParserSizeCt :=
  ⟨none, none, none, none, [], [], [], [], none, none, none, none⟩

/-- A classified page whose headword text is blank: the URL pattern, the
page title, the `h2.headword` tag and the medicine-dictionary cite are
all present, but no phase extracts a non-empty value. -/
def parserBareSoup : ParserSoup :=
  ⟨some "세파클러 - 의약품사전", some " ", none, some "의약품사전", [],
   some parserEmptyCt⟩

/-- The url of the bare classified page. -/
def parserBareUrl : String :=
  "https://terms.naver.com/entry.naver?docId=1&cid=51000"

set_option maxRecDepth 8000 in
/-- C8 (counterexample): the claim says a record with no populated field
beyond `url` is never returned, but `parse_medicine_detail` has no such
guard: on a classified page whose headword is blank it returns a record
whose only non-empty non-metadata field is the `url`. -/
theorem parse_medicine_detail_returns_bare_record :
    parse_medicine_detail parserBareSoup parserBareUrl =
      some [("url", parserBareUrl), ("korean_name", ""),
            ("data_hash", "d34e01d285f8dc56e0ca710c92b442de")] ∧
    ([("url", parserBareUrl), ("korean_name", ""),
      ("data_hash", "d34e01d285f8dc56e0ca710c92b442de")] : PyDict).filter
        (fun p => truthy p.2 && p.1 != "url" && p.1 != "data_hash") = [] := by
  constructor
  · rfl
  · rfl

/-- A dictionary accepted by the final guard has more than one key. -/
theorem processFinalize_some (d' d : PyDict) (h : processFinalize d' = some d) :
    1 < d.length := by
  unfold processFinalize at h
  by_cases hle : d'.length ≤ 1
  · rw [if_pos hle] at h
    cases h
  · rw [if_neg hle] at h
    cases h
    omega

/-- C8 (amended): `SearchManager.process_medicine_data` counts dictionary
keys: a returned record always carries at least one key beyond `url`,
and a page on which no phase adds any key yields null; the guard counts
keys rather than non-empty values, and `parse_medicine_detail` has no
guard at all (see the counterexample). -/
theorem process_medicine_data_key_count_guard :
    (∀ (pg : Option DetailPage) (dr : Option String) (url : String) (d : PyDict),
      process_medicine_data pg dr url = some d → 1 < d.length) ∧
    (∀ (dr : Option String) (url : String) (pg : DetailPage),
      pg.headwordTitle = none → pg.tmpProfile = none →
      pg.sizeCtSections = none → pg.imgSrc = none →
      process_medicine_data (some pg) dr url = none) := by
  constructor
  · intro pg dr url d h
    cases pg with
    | none => simp [process_medicine_data] at h
    | some p =>
      unfold process_medicine_data at h
      refine processFinalize_some _ _ h
  · intro dr url pg h1 h2 h3 h4
    simp [process_medicine_data, processFinalize, h1, h2, h3, h4]

/-- C8 (witness for the amended theorem): a page carrying only a headword
yields a two-key record, and a page with nothing yields null. -/
theorem process_medicine_data_key_count_guard_witness :
    process_medicine_data
        (some ⟨some ⟨some "세파클러", some "Cefaclor"⟩, none, none, none⟩) none "u" =
      some [("url", "u"), ("korean_name", "세파클러"), ("english_name", "Cefaclor")] ∧
    1 < ([("url", "u"), ("korean_name", "세파클러"),
          ("english_name", "Cefaclor")] : PyDict).length ∧
    process_medicine_data (some ⟨none, none, none, none⟩) none "u" = none :=
  ⟨rfl,
   process_medicine_data_key_count_guard.1
     (some ⟨some ⟨some "세파클러", some "Cefaclor"⟩, none, none, none⟩) none "u" _ rfl,
   process_medicine_data_key_count_guard.2 none "u" ⟨none, none, none, none⟩
     rfl rfl rfl rfl⟩

/-- C9: over a single listing page whose list items carry exactly 3
anchors matching the category entry pattern and 2 that do not,
`fetch_medicine_list_from_search` returns exactly the 3 matching links,
absolutized against the site origin and de-duplicated. -/
theorem fetch_list_single_page_scenario
    (h1 h2 h3 h4 h5 : String) (fetchPage : Nat → Option ListingPage)
    (m1 : isMedicineHref h1 = true) (m2 : isMedicineHref h2 = true)
    (m3 : isMedicineHref h3 = true)
    (n4 : isMedicineHref h4 = false) (n5 : isMedicineHref h5 = false)
    (hpage : fetchPage 1 = some ⟨some [[h1], [h2], [h3], [h4], [h5]], [], []⟩)
    (hnd : ([h1, h2, h3].map absolutizeHref).Nodup) :
    fetch_medicine_list_from_search fetchPage 1 1 =
      [h1, h2, h3].map absolutizeHref ∧
    (fetch_medicine_list_from_search fetchPage 1 1).Nodup := by
  have hrun : fetch_medicine_list_from_search fetchPage 1 1 =
      ([absolutizeHref h1, absolutizeHref h2, absolutizeHref h3]).dedup := by
    simp only [fetch_medicine_list_from_search]
    have hr : List.range' 1 (min (1 + 1) 101 - 1) = [1] := by decide
    rw [hr]
    simp only [List.foldl_cons, List.foldl_nil, hpage]
    unfold firstPassPage firstPassLinks
    simp [m1, m2, m3, n4, n5]
  have hmap : ([h1, h2, h3].map absolutizeHref) =
      [absolutizeHref h1, absolutizeHref h2, absolutizeHref h3] := rfl
  constructor
  · rw [hrun, hmap]
    exact List.dedup_eq_self.mpr (hmap ▸ hnd)
  · rw [hrun]
    exact List.nodup_dedup _

/-- C9 (witness): a concrete five-anchor listing page. -/
theorem fetch_list_single_page_scenario_witness :
    fetch_medicine_list_from_search
        (fun n =>
          if n = 1 then
            some ⟨some [["/entry.naver?docId=11&cid=51000"],
                        ["/entry.naver?docId=12&cid=51000"],
                        ["https://terms.naver.com/entry.naver?docId=13&cid=51000"],
                        ["/other?cid=123"], ["https://example.com/foo"]], [], []⟩
          else none) 1 1 =
      ["https://terms.naver.com/entry.naver?docId=11&cid=51000",
       "https://terms.naver.com/entry.naver?docId=12&cid=51000",
       "https://terms.naver.com/entry.naver?docId=13&cid=51000"] := by
  have h := fetch_list_single_page_scenario
    "/entry.naver?docId=11&cid=51000" "/entry.naver?docId=12&cid=51000"
    "https://terms.naver.com/entry.naver?docId=13&cid=51000"
    "/other?cid=123" "https://example.com/foo"
    (fun n =>
      if n = 1 then
        some ⟨some [["/entry.naver?docId=11&cid=51000"],
                    ["/entry.naver?docId=12&cid=51000"],
                    ["https://terms.naver.com/entry.naver?docId=13&cid=51000"],
                    ["/other?cid=123"], ["https://example.com/foo"]], [], []⟩
      else none)
    (by decide) (by decide) (by decide) (by decide) (by decide) rfl (by decide)
  rw [h.1]
  rfl

/-- The hash under which `save_medicine` checks a new-url record for
duplicates: the supplied `data_hash` when the key is present, otherwise
`generate_data_hash` of the record. -/
def saveHashOf (m : PyDict) : String :=
  (dictGet
    (if dictHasKey m "data_hash" then m
     else dictSet m "data_hash" (generate_data_hash m)) "data_hash").getD ""

/-- The database after saving a first record under url `u2`. -/
def c1db1 : MedDB :=
  (save_medicine MedDB.empty "2024-01-01 10:00:00"
    [("url", "u2"), ("korean_name", "m")]).2

/-- The database after additionally saving, under the fresh url `u1`, a
record whose supplied `data_hash` equals the hash that the `u2` row will
carry after its next update. -/
def c1db2 : MedDB :=
  (save_medicine c1db1 "2024-01-02 10:00:00"
    [("url", "u1"), ("korean_name", "x"),
     ("data_hash", "81efe167754e3eae40ba88bde6447d0f")]).2

/-- The database after a third save that updates the `u2` row in place,
recomputing its hash without any uniqueness check. -/
def c1db3 : MedDB :=
  (save_medicine c1db2 "2024-01-03 10:00:00"
    [("url", "u2"), ("korean_name", "n")]).2

set_option maxRecDepth 8000 in
/-- C1 (counterexample): hash uniqueness does not survive the update
path.  After three successful saves the store holds two rows with
distinct urls and the same `data_hash`: the update of `u2` recomputed
its hash with no uniqueness check against the `u1` row. -/
theorem update_path_creates_shared_data_hash :
    c1db3.rows.map (fun r => dictGet r.data "url") = [some "u2", some "u1"] ∧
    c1db3.rows.map (fun r => dictGet r.data "data_hash") =
      [some "81efe167754e3eae40ba88bde6447d0f",
       some "81efe167754e3eae40ba88bde6447d0f"] := by
  constructor
  · rfl
  · rfl

/-- C1 (amended): uniqueness is enforced on the insert path only: a
record whose url is new but whose hash (supplied, or computed when the
key is absent) equals a stored row's `data_hash` is rejected with a null
return and no change to the store; the update path (see the
counterexample) recomputes the hash without such a check. -/
theorem save_medicine_rejects_duplicate_hash
    (db : MedDB) (now : String) (m : PyDict) (url : String)
    (hurl : dictGet m "url" = some url)
    (hnew : is_url_exists db url = false)
    (hdup : is_data_hash_exists db (saveHashOf m) = true) :
    save_medicine db now m = (none, db) := by
  unfold save_medicine
  rw [hurl]
  simp only [hnew, Bool.false_eq_true, if_false]
  unfold saveHashOf at hdup
  simp only [hdup, if_true]

set_option maxRecDepth 8000 in
/-- C1 (witness for the amended theorem): the cross-url duplicate
scenario: a second save with a fresh url but the stored row's exact
hash returns null and leaves the store unchanged. -/
theorem save_medicine_rejects_duplicate_hash_witness :
    dictGet [("url", "u1"), ("korean_name", "x"),
             ("data_hash", "0284349de89766c3ddc205698e0d0abd")] "url" = some "u1" ∧
    is_url_exists c1db1 "u1" = false ∧
    is_data_hash_exists c1db1
      (saveHashOf [("url", "u1"), ("korean_name", "x"),
                   ("data_hash", "0284349de89766c3ddc205698e0d0abd")]) = true ∧
    save_medicine c1db1 "2024-01-02 10:00:00"
        [("url", "u1"), ("korean_name", "x"),
         ("data_hash", "0284349de89766c3ddc205698e0d0abd")] = (none, c1db1) :=
  ⟨rfl, rfl, rfl,
   save_medicine_rejects_duplicate_hash c1db1 "2024-01-02 10:00:00"
     [("url", "u1"), ("korean_name", "x"),
      ("data_hash", "0284349de89766c3ddc205698e0d0abd")] "u1" rfl rfl rfl⟩

/-- C4: saving a record whose url already exists never inserts a row:
every matching row is rewritten in place with the merged columns, the
row count and next id are unchanged, the existing row's id is returned,
and the written columns follow the merge rule — a truthy new value wins,
otherwise the old (NULL-totalized) value is kept — with `updated_at`
refreshed and `data_hash` recomputed over the merged record. -/
theorem save_medicine_existing_url_updates
    (db : MedDB) (now : String) (m : PyDict) (url : String) (r : MedRow)
    (hnd : (dictKeys m).Nodup)
    (hurl : dictGet m "url" = some url)
    (hfind : db.rows.find? (fun r' => dictGet r'.data "url" == some url) = some r) :
    (save_medicine db now m).1 = some r.id ∧
    (save_medicine db now m).2.rows.length = db.rows.length ∧
    (save_medicine db now m).2.nextId = db.nextId ∧
    (save_medicine db now m).2.rows = db.rows.map (fun r' =>
      if dictGet r'.data "url" == some url then
        { r' with data := updateWritten r now m } else r') ∧
    (∀ f ∈ MEDICINE_SCHEMA_KEYS, f ≠ "id" → f ≠ "updated_at" → f ≠ "data_hash" →
      dictGet (updateWritten r now m) f =
        some (if truthy ((dictGet m f).getD "")
              then (dictGet m f).getD ""
              else (dictGet r.data f).getD "")) ∧
    dictGet (updateWritten r now m) "updated_at" = some now ∧
    dictGet (updateWritten r now m) "data_hash" =
      some (generate_data_hash (mergedRecord r now m)) := by
  have hex : is_url_exists db url = true := by
    unfold is_url_exists
    rw [List.any_eq_true]
    have hpr := List.find?_some hfind
    exact ⟨r, List.mem_of_find?_eq_some hfind, hpr⟩
  have hsave : save_medicine db now m = update_medicine_by_url db now url m := by
    unfold save_medicine
    rw [hurl]
    simp only [hex, if_true]
  have hupd : update_medicine_by_url db now url m =
      (some r.id, { db with rows := db.rows.map (fun r' =>
        if dictGet r'.data "url" == some url then
          { r' with data := updateWritten r now m } else r') }) := by
    unfold update_medicine_by_url
    rw [hfind]
  rw [hsave, hupd]
  refine ⟨rfl, by simp, rfl, rfl, ?_, ?_, ?_⟩
  · intro f hf h1 h2 h3
    rw [dictGet_updateWritten r now m f hf h1]
    rw [dictGet_updateMerged_of_ne r now m f hnd hf h2 h3]
    have hf' : f ∈ MEDICINE_SCHEMA_KEYS.drop 1 := by
      have hc : MEDICINE_SCHEMA_KEYS = "id" :: MEDICINE_SCHEMA_KEYS.drop 1 := rfl
      rw [hc] at hf
      rcases List.mem_cons.mp hf with he | he
      · exact absurd he h1
      · exact he
    rw [dictGet_rowAsDict r f hf']
    cases hm : dictGet m f with
    | none => simp [truthy]
    | some v =>
      by_cases ht : truthy v = true
      · simp [ht]
      · simp only [Bool.not_eq_true] at ht
        simp [ht, truthy] at *
        simp [ht]
  · rw [dictGet_updateWritten r now m "updated_at" (by decide) (by decide)]
    rw [dictGet_updateMerged_updated_at]
    rfl
  · rw [dictGet_updateWritten r now m "data_hash" (by decide) (by decide)]
    rw [dictGet_updateMerged_data_hash]
    rfl

/-- A stored row used to witness the update path. -/
def c4row : MedRow :=
  ⟨1, [("korean_name", "m"), ("url", "u"), ("efficacy", "eff"),
       ("created_at", "2023-01-01 00:00:00"),
       ("updated_at", "2023-01-01 00:00:00"), ("data_hash", "h0")]⟩

/-- A one-row store holding `c4row`. -/
def c4db : MedDB := ⟨[c4row], 2⟩

/-- An incoming record for the same url: new `korean_name` and `dosage`,
no `efficacy`. -/
def c4m : PyDict := [("url", "u"), ("korean_name", "n"), ("dosage", "dd")]

set_option maxRecDepth 8000 in
/-- C4 (witness): the second save of url `u` keeps one row, returns the
existing id, overwrites `korean_name` with the new value and preserves
the `efficacy` the incoming record left empty. -/
theorem save_medicine_existing_url_updates_witness :
    (dictKeys c4m).Nodup ∧
    c4db.rows.find? (fun r' => dictGet r'.data "url" == some "u") = some c4row ∧
    (save_medicine c4db "2024-02-02 00:00:00" c4m).1 = some 1 ∧
    (save_medicine c4db "2024-02-02 00:00:00" c4m).2.rows.length = 1 ∧
    dictGet (updateWritten c4row "2024-02-02 00:00:00" c4m) "korean_name" = some "n" ∧
    dictGet (updateWritten c4row "2024-02-02 00:00:00" c4m) "efficacy" = some "eff" := by
  have h := save_medicine_existing_url_updates c4db "2024-02-02 00:00:00" c4m "u"
    c4row (by decide) rfl rfl
  refine ⟨by decide, rfl, h.1, h.2.1, ?_, ?_⟩
  · have hk := h.2.2.2.2.1 "korean_name" (by decide) (by decide) (by decide) (by decide)
    rw [hk]
    rfl
  · have hk := h.2.2.2.2.1 "efficacy" (by decide) (by decide) (by decide) (by decide)
    rw [hk]
    rfl

/-- The stored row of the created-at counterexample. -/
def c10row : MedRow :=
  ⟨1, [("korean_name", "m"), ("url", "u"),
       ("created_at", "2023-01-01 00:00:00"),
       ("updated_at", "2023-01-01 00:00:00"), ("data_hash", "h0")]⟩

/-- A one-row store holding `c10row`. -/
def c10db : MedDB := ⟨[c10row], 2⟩

set_option maxRecDepth 8000 in
/-- C10 (counterexample): `created_at` is NOT always preserved by the
update path: an incoming record carrying a non-empty `created_at` wins
the merge and overwrites the stored value. -/
theorem update_can_overwrite_created_at :
    dictGet c10row.data "created_at" = some "2023-01-01 00:00:00" ∧
    (save_medicine c10db "2024-05-05 12:00:00"
        [("url", "u"), ("created_at", "1999-01-01 00:00:00")]).2.rows.map
      (fun r => dictGet r.data "created_at") = [some "1999-01-01 00:00:00"] := by
  constructor
  · rfl
  · rfl

/-- C10 (amended): on the update path the row ids never change and no
row is added; `updated_at` is set to now; and `created_at` is preserved
provided the incoming record does not carry a non-empty `created_at`
(the merge would let such a value win, see the counterexample). -/
theorem update_preserves_id_and_guarded_created_at
    (db : MedDB) (now : String) (m : PyDict) (url : String) (r : MedRow)
    (hnd : (dictKeys m).Nodup)
    (hurl : dictGet m "url" = some url)
    (hfind : db.rows.find? (fun r' => dictGet r'.data "url" == some url) = some r)
    (hca : truthy ((dictGet m "created_at").getD "") = false) :
    (save_medicine db now m).2.rows.map MedRow.id = db.rows.map MedRow.id ∧
    (save_medicine db now m).2.nextId = db.nextId ∧
    dictGet (updateWritten r now m) "created_at" =
      some ((dictGet r.data "created_at").getD "") ∧
    dictGet (updateWritten r now m) "updated_at" = some now := by
  have hex : is_url_exists db url = true := by
    unfold is_url_exists
    rw [List.any_eq_true]
    have hpr := List.find?_some hfind
    exact ⟨r, List.mem_of_find?_eq_some hfind, hpr⟩
  have heq : save_medicine db now m =
      (some r.id, { db with rows := db.rows.map (fun r' =>
        if dictGet r'.data "url" == some url then
          { r' with data := updateWritten r now m } else r') }) := by
    unfold save_medicine
    rw [hurl]
    simp only [hex, if_true]
    unfold update_medicine_by_url
    rw [hfind]
  refine ⟨?_, ?_, ?_, ?_⟩
  · rw [heq]
    show (db.rows.map _).map MedRow.id = db.rows.map MedRow.id
    rw [List.map_map]
    apply List.map_congr_left
    intro a _
    by_cases hc : dictGet a.data "url" = some url <;> simp [hc]
  · rw [heq]
  · rw [dictGet_updateWritten r now m "created_at" (by decide) (by decide)]
    rw [dictGet_updateMerged_of_ne r now m "created_at" hnd (by decide)
      (by decide) (by decide)]
    cases hm : dictGet m "created_at" with
    | none =>
      rw [dictGet_rowAsDict r "created_at" (by decide)]
      rfl
    | some v =>
      have hv : truthy v = false := by simpa [hm] using hca
      simp [hv, dictGet_rowAsDict r "created_at" (by decide)]
  · rw [dictGet_updateWritten r now m "updated_at" (by decide) (by decide)]
    rw [dictGet_updateMerged_updated_at]
    rfl

set_option maxRecDepth 8000 in
/-- C10 (witness for the amended theorem): an incoming record without a
`created_at` leaves the stored `created_at` intact while `updated_at`
moves to now. -/
theorem update_preserves_id_and_guarded_created_at_witness :
    truthy ((dictGet [("url", "u"), ("korean_name", "k")] "created_at").getD "") =
      false ∧
    (save_medicine c10db "2024-05-05 12:00:00"
        [("url", "u"), ("korean_name", "k")]).2.rows.map MedRow.id = [1] ∧
    dictGet (updateWritten c10row "2024-05-05 12:00:00"
        [("url", "u"), ("korean_name", "k")]) "created_at" =
      some "2023-01-01 00:00:00" ∧
    dictGet (updateWritten c10row "2024-05-05 12:00:00"
        [("url", "u"), ("korean_name", "k")]) "updated_at" =
      some "2024-05-05 12:00:00" := by
  have h := update_preserves_id_and_guarded_created_at c10db "2024-05-05 12:00:00"
    [("url", "u"), ("korean_name", "k")] "u" c10row (by decide) rfl rfl (by decide)
  refine ⟨by decide, ?_, ?_, h.2.2.2⟩
  · rw [h.1]
    rfl
  · rw [h.2.2.1]
    rfl
